import Mathlib

/-!
Verification of the Conway's Game of Life simulator (`src/main.rs`).

The Rust program is shallowly embedded: `Cell` and `World` mirror the
source data types (`Vec<Vec<Cell>>` becomes `List (List Cell)`), and each
method of `impl World` becomes a Lean function of the same name.  Rust's
in-place mutation is modelled by explicit state passing: `set` returns the
updated world, `advance` returns the pair (updated current world, updated
scratch world).  Out-of-range indexing, which panics in Rust, is modelled
by `List.getD` with the `Dead` default; every theorem below only ever
evaluates cells at in-range coordinates of well-formed worlds.
-/

/-- The two cell states of the Rust `enum Cell`. -/
inductive Cell where
  | Dead : Cell
  | Live : Cell
deriving DecidableEq, Repr

/-- `Cell::n`: the numeric neighbor contribution of a cell. -/
def Cell.n : Cell → Nat
  | .Dead => 0
  | .Live => 1

/-- The Rust `struct World`. -/
structure World where
  cells : List (List Cell)
  width : Nat
  height : Nat
deriving DecidableEq, Repr

/-- Row access `self.cells[y]`; an out-of-range row (a panic in Rust)
defaults to the empty row. -/
def World.row (w : World) (y : Nat) : List Cell :=
  w.cells.getD y []

/-- Reading `self.cells[y][x]`; out-of-range reads (a panic in Rust)
default to `Dead`. -/
def World.cell (w : World) (y x : Nat) : Cell :=
  (w.row y).getD x Cell.Dead

/-- The all-`Dead` grid that `World::new` returns on success:
`height` rows of `width` `Dead` cells. -/
def World.newOk (width height : Nat) : World :=
  { cells := List.replicate height (List.replicate width Cell.Dead),
    width := width, height := height }

/-- `World::new`: reject dimensions below 3x3, otherwise succeed with the
all-`Dead` grid. -/
def World.new (width height : Nat) : Except String World :=
  if width < 3 ∨ height < 3 then
    .error "the world cannot be smaller than 3x3"
  else
    .ok (World.newOk width height)

/-- `World::count_neighbors`: the boundary rows/columns wrap to the
opposite edge, then the eight surrounding cells are summed. -/
def World.count_neighbors (w : World) (x y : Nat) : Nat :=
  let t := if y = 0 then w.height - 1 else y - 1
  let b := if y = w.height - 1 then 0 else y + 1
  let l := if x = 0 then w.width - 1 else x - 1
  let r := if x = w.width - 1 then 0 else x + 1
  (w.cell t l).n +
  (w.cell t x).n +
  (w.cell t r).n +
  (w.cell y l).n +
  (w.cell y r).n +
  (w.cell b l).n +
  (w.cell b x).n +
  (w.cell b r).n

/-- `World::set`: `self.cells[y][x] = value`. -/
def World.set (w : World) (x y : Nat) (value : Cell) : World :=
  { w with cells := w.cells.set y ((w.row y).set x value) }

/-- The match expression inside `World::advance` deciding the next value
of cell `(x, y)` from the current grid. -/
def World.newCell (w : World) (x y : Nat) : Cell :=
  let num_neighbors := w.count_neighbors x y
  match w.cell y x, num_neighbors with
  | Cell.Live, 0 => Cell.Dead
  | Cell.Live, 1 => Cell.Dead
  | Cell.Live, 2 => Cell.Live
  | Cell.Live, 3 => Cell.Live
  | Cell.Live, _ => Cell.Dead
  | Cell.Dead, 3 => Cell.Live
  | Cell.Dead, _ => Cell.Dead

/-- Phase 1 of `World::advance`: for every coordinate of the current
grid (row by row, cell by cell), write the next value of that cell into
the scratch world. -/
def World.writeNext (w tmp : World) : World :=
  (List.range w.cells.length).foldl
    (fun t y =>
      (List.range (w.row y).length).foldl
        (fun t x => t.set x y (w.newCell x y)) t)
    tmp

/-- `World::advance`: phase 1 writes the next generation into the scratch
world `tmp`; phase 2 copies every scratch cell back over the current
grid.  Returns (current, scratch) as left after the call. -/
def World.advance (w tmp : World) : World × World :=
  let tmp1 := w.writeNext tmp
  ({ w with
      cells := w.cells.mapIdx (fun y row =>
        row.mapIdx (fun x _ => tmp1.cell y x)) },
   tmp1)

/-- The per-cell rendering symbol used by `World::as_string`. -/
def Cell.symbol : Cell → Char
  | .Dead => '.'
  | .Live => 'O'

/-- `World::as_string`: push one symbol per cell, row by row, with a
newline after each row.  It reads the grid and builds a string; the
world itself is not touched (in this pure embedding it is not even a
possible effect). -/
def World.as_string (w : World) : String :=
  w.cells.foldl
    (fun s row => (row.foldl (fun s cell => s.push cell.symbol) s).push '\n')
    ""

/-- Well-formedness: the grid really is `height` rows of `width` cells.
`World::new` establishes this and no operation breaks it. -/
def World.WF (w : World) : Prop :=
  w.cells.length = w.height ∧ ∀ y < w.height, (w.row y).length = w.width

instance (w : World) : Decidable w.WF := by
  unfold World.WF; infer_instance

/-- Two worlds of identical shape: same `width`/`height` fields, same
number of rows, and rows of pointwise equal lengths. -/
def World.ShapeEq (a b : World) : Prop :=
  a.width = b.width ∧ a.height = b.height ∧
  a.cells.length = b.cells.length ∧ ∀ y, (a.row y).length = (b.row y).length

/-- The seeding performed by `main`: five `set` calls placing the glider
around the midpoint of a freshly constructed world. -/
def seedWorld (width height : Nat) : World :=
  let w := World.newOk width height
  let mx := width / 2
  let my := height / 2
  ((((w.set (mx + 1) (my - 1) Cell.Live).set
      (mx - 1) my Cell.Live).set
      (mx + 1) my Cell.Live).set
      mx (my + 1) Cell.Live).set
      (mx + 1) (my + 1) Cell.Live

/-- The generation loop of `main`: repeatedly call `advance`, threading
the (current, scratch) pair. -/
def advanceN : Nat → World × World → World × World
  | 0, p => p
  | n + 1, p => advanceN n (p.1.advance p.2)

/-- The five glider cells translated by (+1, +1) modulo (width, height),
set on an otherwise all-`Dead` grid — the expected result of four
generations, written from the specification's words. -/
def gliderTranslated (width height : Nat) : World :=
  let w := World.newOk width height
  let mx := width / 2
  let my := height / 2
  ((((w.set ((mx + 1 + 1) % width) ((my - 1 + 1) % height) Cell.Live).set
      ((mx - 1 + 1) % width) ((my + 1) % height) Cell.Live).set
      ((mx + 1 + 1) % width) ((my + 1) % height) Cell.Live).set
      ((mx + 1) % width) ((my + 1 + 1) % height) Cell.Live).set
      ((mx + 1 + 1) % width) ((my + 1 + 1) % height) Cell.Live

/-- The rule table of §4.4, transcribed from the specification's words:
a `Live` cell with 0 or 1 live neighbors dies, with 2 or 3 survives,
with more dies; a `Dead` cell with exactly 3 live neighbors is born,
otherwise stays `Dead`. -/
def specRuleTable (c : Cell) (k : Nat) : Cell :=
  match c with
  | Cell.Live => if k ≤ 1 then Cell.Dead else if k ≤ 3 then Cell.Live else Cell.Dead
  | Cell.Dead => if k = 3 then Cell.Live else Cell.Dead

/-- The neighbor sum of §4.3, transcribed from the specification's words:
the eight cells surrounding `(x, y)` under toroidal wrap-around, the cell
itself excluded, each contributing its `Cell.n` value. -/
def specNeighborSum (w : World) (x y : Nat) : Nat :=
  let t := (y + w.height - 1) % w.height
  let b := (y + 1) % w.height
  let l := (x + w.width - 1) % w.width
  let r := (x + 1) % w.width
  (w.cell t l).n + (w.cell t x).n + (w.cell t r).n +
  (w.cell y l).n + (w.cell y r).n +
  (w.cell b l).n + (w.cell b x).n + (w.cell b r).n

/-- The inner loop of phase 1, writing row `y` up to column `n` — the
state of the scratch world while `advance`'s first loop is running. -/
def writeRowUpTo (w : World) (y n : Nat) (t : World) : World :=
  (List.range n).foldl (fun t x => t.set x y (w.newCell x y)) t

/-- The outer loop of phase 1, writing rows `0..m`. -/
def writeRowsUpTo (w : World) (m : Nat) (t : World) : World :=
  (List.range m).foldl (fun t y => writeRowUpTo w y (w.row y).length t) t

/-- Every cell of the grid is `Dead`. -/
def World.AllDead (w : World) : Prop :=
  ∀ y < w.height, ∀ x < w.width, w.cell y x = Cell.Dead

instance (w : World) : Decidable w.AllDead := by
  unfold World.AllDead; infer_instance

/-- The next generation of a grid as a direct per-cell map — the form
`advance` is proven below to compute for well-formed worlds. -/
def stepWorld (w : World) : World :=
  { w with cells := w.cells.mapIdx (fun y row =>
      row.mapIdx (fun x _ => w.newCell x y)) }

/-! ### Basic lemmas about cells, rows and `set` -/

lemma Cell.n_le_one (c : Cell) : c.n ≤ 1 := by
  cases c <;> simp [Cell.n]

lemma World.row_eq_getElem (w : World) (y : Nat) (hy : y < w.cells.length) :
    w.row y = w.cells[y] :=
  List.getD_eq_getElem _ _ hy

lemma World.row_eq_nil (w : World) (y : Nat) (hy : w.cells.length ≤ y) :
    w.row y = [] :=
  List.getD_eq_default _ _ hy

lemma World.cell_eq_getElem (w : World) (y x : Nat) (_hy : y < w.cells.length)
    (hx : x < (w.row y).length) : w.cell y x = (w.row y)[x] :=
  List.getD_eq_getElem _ _ hx

@[simp] lemma World.width_set (w : World) (x y : Nat) (v : Cell) :
    (w.set x y v).width = w.width := rfl

@[simp] lemma World.height_set (w : World) (x y : Nat) (v : Cell) :
    (w.set x y v).height = w.height := rfl

@[simp] lemma World.length_cells_set (w : World) (x y : Nat) (v : Cell) :
    (w.set x y v).cells.length = w.cells.length :=
  List.length_set ..

lemma World.row_set (w : World) (x y : Nat) (v : Cell) (y' : Nat) :
    (w.set x y v).row y' =
      if y = y' ∧ y < w.cells.length then (w.row y).set x v else w.row y' := by
  show (w.cells.set y ((w.row y).set x v)).getD y' [] = _
  rw [List.getD_eq_getElem?_getD, List.getElem?_set]
  by_cases hyy : y = y'
  · subst hyy
    by_cases hylen : y < w.cells.length
    · simp [hylen]
    · simp only [hylen, if_false, if_true, and_false, if_neg]
      rw [World.row_eq_nil w y (Nat.le_of_not_lt hylen)]
      simp [hylen]
  · simp [hyy, ← List.getD_eq_getElem?_getD, World.row]

lemma World.rowlen_set (w : World) (x y : Nat) (v : Cell) (y' : Nat) :
    ((w.set x y v).row y').length = (w.row y').length := by
  rw [World.row_set]
  by_cases h : y = y' ∧ y < w.cells.length
  · obtain ⟨rfl, hlen⟩ := h
    rw [if_pos ⟨rfl, hlen⟩, List.length_set]
  · rw [if_neg h]

lemma World.cell_set (w : World) (x y : Nat) (v : Cell) (y' x' : Nat) :
    (w.set x y v).cell y' x' =
      if y = y' ∧ x = x' ∧ y < w.cells.length ∧ x < (w.row y).length then v
      else w.cell y' x' := by
  show ((w.set x y v).row y').getD x' Cell.Dead = _
  rw [World.row_set]
  by_cases hy : y = y' ∧ y < w.cells.length
  · obtain ⟨rfl, hylen⟩ := hy
    rw [if_pos ⟨rfl, hylen⟩, List.getD_eq_getElem?_getD, List.getElem?_set]
    by_cases hx : x = x'
    · subst hx
      by_cases hxlen : x < (w.row y).length
      · rw [if_pos rfl, if_pos hxlen, Option.getD_some,
          if_pos ⟨rfl, rfl, hylen, hxlen⟩]
      · rw [if_pos rfl, if_neg hxlen, Option.getD_none,
          if_neg (by tauto), World.cell,
          List.getD_eq_default _ _ (Nat.le_of_not_lt hxlen)]
    · rw [if_neg hx, if_neg (by tauto), World.cell, List.getD_eq_getElem?_getD]
  · rw [if_neg hy, if_neg (by tauto)]
    rfl

lemma World.shapeEq_refl (a : World) : a.ShapeEq a :=
  ⟨rfl, rfl, rfl, fun _ => rfl⟩

lemma World.shapeEq_trans {a b c : World} (h1 : a.ShapeEq b) (h2 : b.ShapeEq c) :
    a.ShapeEq c :=
  ⟨h1.1.trans h2.1, h1.2.1.trans h2.2.1, h1.2.2.1.trans h2.2.2.1,
   fun y => (h1.2.2.2 y).trans (h2.2.2.2 y)⟩

lemma World.shapeEq_set (w : World) (x y : Nat) (v : Cell) :
    (w.set x y v).ShapeEq w :=
  ⟨rfl, rfl, World.length_cells_set .., fun y' => World.rowlen_set w x y v y'⟩

/-! ### The two nested write loops of phase 1 of `advance` -/

lemma writeRowUpTo_succ (w : World) (y n : Nat) (t : World) :
    writeRowUpTo w y (n + 1) t =
      (writeRowUpTo w y n t).set n y (w.newCell n y) := by
  unfold writeRowUpTo
  rw [List.range_succ, List.foldl_append, List.foldl_cons, List.foldl_nil]

lemma writeRowUpTo_shape (w : World) (y n : Nat) (t : World) :
    (writeRowUpTo w y n t).ShapeEq t := by
  induction n with
  | zero => exact World.shapeEq_refl t
  | succ n ih =>
    rw [writeRowUpTo_succ]
    exact World.shapeEq_trans (World.shapeEq_set ..) ih

lemma writeRowUpTo_cell (w : World) (y n : Nat) (t : World) (y' x' : Nat) :
    (writeRowUpTo w y n t).cell y' x' =
      if y = y' ∧ x' < n ∧ y < t.cells.length ∧ x' < (t.row y).length then
        w.newCell x' y
      else t.cell y' x' := by
  induction n with
  | zero =>
    rw [if_neg (by rintro ⟨_, h, _⟩; omega)]
    rfl
  | succ n ih =>
    rw [writeRowUpTo_succ, World.cell_set, ih]
    have hsh := writeRowUpTo_shape w y n t
    by_cases h1 : y = y' ∧ n = x' ∧ y < (writeRowUpTo w y n t).cells.length ∧
        n < ((writeRowUpTo w y n t).row y).length
    · obtain ⟨rfl, rfl, hlen, hrow⟩ := h1
      rw [if_pos ⟨rfl, rfl, hlen, hrow⟩,
        if_pos ⟨rfl, by omega, by rw [← hsh.2.2.1]; exact hlen,
          by rw [← hsh.2.2.2 y]; exact hrow⟩]
    · rw [if_neg h1]
      by_cases h2 : y = y' ∧ x' < n ∧ y < t.cells.length ∧ x' < (t.row y).length
      · obtain ⟨rfl, hn, hlen, hrow⟩ := h2
        rw [if_pos ⟨rfl, hn, hlen, hrow⟩, if_pos ⟨rfl, by omega, hlen, hrow⟩]
      · rw [if_neg h2]
        by_cases h3 : y = y' ∧ x' < n + 1 ∧ y < t.cells.length ∧
            x' < (t.row y).length
        · obtain ⟨rfl, hn, hlen, hrow⟩ := h3
          have hx : n = x' := by
            rcases Nat.lt_succ_iff_lt_or_eq.mp hn with h | h
            · exact absurd ⟨rfl, h, hlen, hrow⟩ h2
            · omega
          subst hx
          exact absurd ⟨rfl, rfl, by rw [hsh.2.2.1]; exact hlen,
            by rw [hsh.2.2.2 y]; exact hrow⟩ h1
        · rw [if_neg h3]

lemma World.lt_length_of_lt_rowlen (w : World) {y x : Nat}
    (h : x < (w.row y).length) : y < w.cells.length := by
  by_contra h'
  rw [World.row_eq_nil w y (Nat.le_of_not_lt h')] at h
  simp at h

lemma writeRowsUpTo_succ (w : World) (m : Nat) (t : World) :
    writeRowsUpTo w (m + 1) t =
      writeRowUpTo w m (w.row m).length (writeRowsUpTo w m t) := by
  unfold writeRowsUpTo
  rw [List.range_succ, List.foldl_append, List.foldl_cons, List.foldl_nil]

lemma writeRowsUpTo_shape (w : World) (m : Nat) (t : World) :
    (writeRowsUpTo w m t).ShapeEq t := by
  induction m with
  | zero => exact World.shapeEq_refl t
  | succ m ih =>
    rw [writeRowsUpTo_succ]
    exact World.shapeEq_trans (writeRowUpTo_shape ..) ih

lemma writeRowsUpTo_cell (w t : World) (hs : t.ShapeEq w) (m y' x' : Nat) :
    (writeRowsUpTo w m t).cell y' x' =
      if y' < m ∧ x' < (w.row y').length then w.newCell x' y'
      else t.cell y' x' := by
  induction m with
  | zero =>
    rw [if_neg (by rintro ⟨h, _⟩; omega)]
    rfl
  | succ m ih =>
    rw [writeRowsUpTo_succ, writeRowUpTo_cell, ih]
    have hsh := writeRowsUpTo_shape w m t
    by_cases h1 : m = y' ∧ x' < (w.row m).length
    · obtain ⟨rfl, hrow⟩ := h1
      have hmlen : m < w.cells.length := World.lt_length_of_lt_rowlen w hrow
      rw [if_pos ⟨rfl, hrow, by rw [hsh.2.2.1, hs.2.2.1]; exact hmlen,
        by rw [hsh.2.2.2 m, hs.2.2.2 m]; exact hrow⟩,
        if_pos ⟨by omega, hrow⟩]
    · rw [if_neg (by
        rintro ⟨rfl, hx, -, hr⟩
        exact h1 ⟨rfl, by rw [hsh.2.2.2 m, hs.2.2.2 m] at hr; exact hr⟩)]
      by_cases h2 : y' < m ∧ x' < (w.row y').length
      · rw [if_pos h2, if_pos ⟨by omega, h2.2⟩]
      · rw [if_neg h2, if_neg (by
          rintro ⟨hy, hx⟩
          rcases Nat.lt_succ_iff_lt_or_eq.mp hy with h | rfl
          · exact h2 ⟨h, hx⟩
          · exact h1 ⟨rfl, hx⟩)]

/-! ### Lemmas about `advance` -/

lemma World.writeNext_eq_writeRowsUpTo (w t : World) :
    w.writeNext t = writeRowsUpTo w w.cells.length t := rfl

lemma World.writeNext_shape (w t : World) : (w.writeNext t).ShapeEq t :=
  writeRowsUpTo_shape w w.cells.length t

lemma World.writeNext_cell (w t : World) (hs : t.ShapeEq w) (y' x' : Nat) :
    (w.writeNext t).cell y' x' =
      if y' < w.cells.length ∧ x' < (w.row y').length then w.newCell x' y'
      else t.cell y' x' :=
  writeRowsUpTo_cell w t hs w.cells.length y' x'

lemma World.advance_snd (w tmp : World) : (w.advance tmp).2 = w.writeNext tmp :=
  rfl

lemma World.advance_fst_cells (w tmp : World) :
    (w.advance tmp).1.cells =
      w.cells.mapIdx (fun y row =>
        row.mapIdx (fun x _ => (w.writeNext tmp).cell y x)) :=
  rfl

@[simp] lemma World.advance_fst_width (w tmp : World) :
    (w.advance tmp).1.width = w.width := rfl

@[simp] lemma World.advance_fst_height (w tmp : World) :
    (w.advance tmp).1.height = w.height := rfl

lemma World.advance_fst_length (w tmp : World) :
    (w.advance tmp).1.cells.length = w.cells.length := by
  rw [World.advance_fst_cells, List.length_mapIdx]

lemma World.advance_fst_row (w tmp : World) (y : Nat) (hy : y < w.cells.length) :
    (w.advance tmp).1.row y =
      (w.cells[y]).mapIdx (fun x _ => (w.writeNext tmp).cell y x) := by
  rw [World.row, World.advance_fst_cells, List.getD_eq_getElem?_getD,
    List.getElem?_mapIdx, List.getElem?_eq_getElem hy]
  rfl

lemma World.advance_fst_rowlen (w tmp : World) (y : Nat) :
    ((w.advance tmp).1.row y).length = (w.row y).length := by
  by_cases hy : y < w.cells.length
  · rw [World.advance_fst_row w tmp y hy, List.length_mapIdx,
      World.row_eq_getElem w y hy]
  · have h1 : (w.advance tmp).1.cells.length ≤ y := by
      rw [World.advance_fst_length]; omega
    rw [World.row_eq_nil _ _ h1, World.row_eq_nil _ _ (Nat.le_of_not_lt hy)]

lemma World.advance_fst_shape (w tmp : World) : (w.advance tmp).1.ShapeEq w :=
  ⟨rfl, rfl, World.advance_fst_length w tmp, World.advance_fst_rowlen w tmp⟩

lemma World.advance_fst_cell (w tmp : World) (hs : tmp.ShapeEq w) (y x : Nat)
    (hy : y < w.cells.length) (hx : x < (w.row y).length) :
    (w.advance tmp).1.cell y x = w.newCell x y := by
  have hrow := World.advance_fst_row w tmp y hy
  have hx' : x < (w.cells[y]).length := by
    rw [← World.row_eq_getElem w y hy]; exact hx
  have hsome : ((w.advance tmp).1.row y)[x]? =
      some ((w.writeNext tmp).cell y x) := by
    rw [hrow, List.getElem?_mapIdx, List.getElem?_eq_getElem hx',
      Option.map_some']
  rw [World.cell, List.getD_eq_getElem?_getD, hsome, Option.getD_some,
    World.writeNext_cell w tmp hs, if_pos ⟨hy, hx⟩]

/-! ### Well-formedness and shape glue -/

lemma World.shapeEq_symm {a b : World} (h : a.ShapeEq b) : b.ShapeEq a :=
  ⟨h.1.symm, h.2.1.symm, h.2.2.1.symm, fun y => (h.2.2.2 y).symm⟩

lemma World.newOk_WF (width height : Nat) : (World.newOk width height).WF := by
  refine ⟨List.length_replicate .., fun y hy => ?_⟩
  show ((List.replicate height (List.replicate width Cell.Dead)).getD y []).length = width
  rw [List.getD_eq_getElem _ _ (by simpa using hy), List.getElem_replicate,
    List.length_replicate]

lemma World.shapeEq_of_WF {a b : World} (ha : a.WF) (hb : b.WF)
    (hw : a.width = b.width) (hh : a.height = b.height) : a.ShapeEq b := by
  refine ⟨hw, hh, by rw [ha.1, hb.1, hh], fun y => ?_⟩
  by_cases hy : y < a.height
  · rw [ha.2 y hy, hb.2 y (by omega), hw]
  · rw [World.row_eq_nil a y (by rw [ha.1]; omega),
      World.row_eq_nil b y (by rw [hb.1, ← hh]; omega)]

lemma World.set_WF (w : World) (x y : Nat) (v : Cell) (h : w.WF) :
    (w.set x y v).WF := by
  refine ⟨(World.length_cells_set ..).trans h.1, fun y' hy' => ?_⟩
  rw [World.rowlen_set]
  exact h.2 y' hy'

lemma World.advance_fst_WF (w tmp : World) (h : w.WF) : (w.advance tmp).1.WF := by
  refine ⟨(World.advance_fst_length ..).trans h.1, fun y hy => ?_⟩
  rw [World.advance_fst_rowlen]
  exact h.2 y hy

/-! ### Neighbor counting -/

lemma World.count_neighbors_le_eight (w : World) (x y : Nat) :
    w.count_neighbors x y ≤ 8 := by
  unfold World.count_neighbors
  dsimp only
  refine le_trans ?_ (by norm_num : (1 + 1 + 1 + 1 + 1 + 1 + 1 + 1 : Nat) ≤ 8)
  gcongr <;> exact Cell.n_le_one _

lemma World.count_neighbors_eq_spec (w : World) (x y : Nat)
    (hx : x < w.width) (hy : y < w.height) :
    w.count_neighbors x y = specNeighborSum w x y := by
  have ht : (if y = 0 then w.height - 1 else y - 1) =
      (y + w.height - 1) % w.height := by
    by_cases h0 : y = 0
    · subst h0
      rw [if_pos rfl, Nat.mod_eq_of_lt (by omega)]
      omega
    · rw [if_neg h0, show y + w.height - 1 = (y - 1) + w.height by omega,
        Nat.add_mod_right, Nat.mod_eq_of_lt (by omega)]
  have hb : (if y = w.height - 1 then 0 else y + 1) = (y + 1) % w.height := by
    by_cases h0 : y = w.height - 1
    · rw [if_pos h0, show y + 1 = w.height by omega, Nat.mod_self]
    · rw [if_neg h0, Nat.mod_eq_of_lt (by omega)]
  have hl : (if x = 0 then w.width - 1 else x - 1) =
      (x + w.width - 1) % w.width := by
    by_cases h0 : x = 0
    · subst h0
      rw [if_pos rfl, Nat.mod_eq_of_lt (by omega)]
      omega
    · rw [if_neg h0, show x + w.width - 1 = (x - 1) + w.width by omega,
        Nat.add_mod_right, Nat.mod_eq_of_lt (by omega)]
  have hr : (if x = w.width - 1 then 0 else x + 1) = (x + 1) % w.width := by
    by_cases h0 : x = w.width - 1
    · rw [if_pos h0, show x + 1 = w.width by omega, Nat.mod_self]
    · rw [if_neg h0, Nat.mod_eq_of_lt (by omega)]
  unfold World.count_neighbors specNeighborSum
  rw [ht, hb, hl, hr]

/-! ### The advance rule equals the specification's rule table -/

lemma World.newCell_eq_specRuleTable (w : World) (x y : Nat) :
    w.newCell x y = specRuleTable (w.cell y x) (w.count_neighbors x y) := by
  unfold World.newCell specRuleTable
  cases hc : w.cell y x <;>
    rcases hk : w.count_neighbors x y with _ | _ | _ | _ | k <;> rfl

/-! ### Further glue: record equality, grid reads, congruence -/

lemma World.eq_of_parts {a b : World} (hc : a.cells = b.cells)
    (hw : a.width = b.width) (hh : a.height = b.height) : a = b := by
  cases a
  cases b
  simp_all

lemma World.getElem_cells (a : World) {y x : Nat} (hy : y < a.cells.length)
    (hx : x < (a.cells[y]).length) : (a.cells[y])[x] = a.cell y x := by
  rw [World.cell, World.row_eq_getElem a y hy, List.getD_eq_getElem _ _ hx]

lemma mapIdx_congr_fun {α β : Type} {l : List α} {f g : Nat → α → β}
    (h : ∀ i (hi : i < l.length), f i (l.get ⟨i, hi⟩) = g i (l.get ⟨i, hi⟩)) :
    l.mapIdx f = l.mapIdx g := by
  apply List.ext_getElem
  · rw [List.length_mapIdx, List.length_mapIdx]
  · intro i h1 h2
    rw [List.getElem_mapIdx, List.getElem_mapIdx]
    exact h i (by simpa using h1)

/-! ### All-dead grids -/

lemma World.count_neighbors_dead (w : World) (hdead : w.AllDead) (x y : Nat)
    (hx : x < w.width) (hy : y < w.height) : w.count_neighbors x y = 0 := by
  unfold World.count_neighbors
  dsimp only
  rw [hdead _ (by split <;> omega) _ (by split <;> omega),
    hdead _ (by split <;> omega) _ hx,
    hdead _ (by split <;> omega) _ (by split <;> omega),
    hdead _ hy _ (by split <;> omega),
    hdead _ hy _ (by split <;> omega),
    hdead _ (by split <;> omega) _ (by split <;> omega),
    hdead _ (by split <;> omega) _ hx,
    hdead _ (by split <;> omega) _ (by split <;> omega)]
  rfl

lemma World.newCell_dead (w : World) (hdead : w.AllDead) (x y : Nat)
    (hx : x < w.width) (hy : y < w.height) : w.newCell x y = Cell.Dead := by
  rw [World.newCell_eq_specRuleTable, hdead y hy x hx,
    World.count_neighbors_dead w hdead x y hx hy]
  rfl

lemma World.advance_fst_allDead (w tmp : World) (hWF : w.WF)
    (hs : tmp.ShapeEq w) (hdead : w.AllDead) :
    (w.advance tmp).1.AllDead := by
  intro y hy x hx
  have hy1 : y < w.height := hy
  have hx1 : x < w.width := hx
  rw [World.advance_fst_cell w tmp hs y x (by rw [hWF.1]; exact hy1)
    (by rw [hWF.2 y hy1]; exact hx1)]
  exact World.newCell_dead w hdead x y hx1 hy1

lemma advanceN_dead_invariant (n : Nat) (w tmp : World)
    (hWF : w.WF) (hs : tmp.ShapeEq w) (hdead : w.AllDead) :
    (advanceN n (w, tmp)).1.width = w.width ∧
    (advanceN n (w, tmp)).1.height = w.height ∧
    (advanceN n (w, tmp)).1.WF ∧ (advanceN n (w, tmp)).1.AllDead := by
  induction n generalizing w tmp with
  | zero => exact ⟨rfl, rfl, hWF, hdead⟩
  | succ n ih =>
    show (advanceN n ((w, tmp).1.advance (w, tmp).2)).1.width = w.width ∧ _
    have hs' : (w.advance tmp).2.ShapeEq (w.advance tmp).1 := by
      rw [World.advance_snd]
      exact World.shapeEq_trans (World.writeNext_shape w tmp)
        (World.shapeEq_trans hs (World.shapeEq_symm (World.advance_fst_shape w tmp)))
    have h := ih (w.advance tmp).1 (w.advance tmp).2
      (World.advance_fst_WF w tmp hWF) hs'
      (World.advance_fst_allDead w tmp hWF hs hdead)
    exact ⟨h.1, h.2.1, h.2.2⟩

/-! ### Rendering -/

lemma foldl_push_row (s : String) (row : List Cell) :
    (row.foldl (fun s c => s.push c.symbol) s).data =
      s.data ++ row.map Cell.symbol := by
  induction row generalizing s with
  | nil => simp
  | cons c cs ih =>
    rw [List.foldl_cons, ih, String.data_push, List.map_cons,
      List.append_assoc, List.singleton_append]

lemma as_string_data_aux (s : String) (rows : List (List Cell)) :
    (rows.foldl
      (fun s row => (row.foldl (fun s c => s.push c.symbol) s).push '\n')
      s).data =
      s.data ++ (rows.map (fun row => row.map Cell.symbol ++ ['\n'])).flatten := by
  induction rows generalizing s with
  | nil => simp
  | cons r rs ih =>
    rw [List.foldl_cons, ih, String.data_push, foldl_push_row, List.map_cons,
      List.flatten_cons]
    simp [List.append_assoc]

/-! ### `advance` as a per-cell map, and the scratch after `advance` -/

lemma World.advance_fst_eq_step (w tmp : World) (hs : tmp.ShapeEq w) :
    (w.advance tmp).1 = stepWorld w := by
  refine World.eq_of_parts ?_ rfl rfl
  rw [World.advance_fst_cells]
  show _ = w.cells.mapIdx _
  apply mapIdx_congr_fun
  intro y hy
  apply mapIdx_congr_fun
  intro x hx
  have hx' : x < (w.row y).length := by
    rw [World.row_eq_getElem w y hy]
    simpa using hx
  rw [World.writeNext_cell w tmp hs, if_pos ⟨hy, hx'⟩]

lemma World.advance_snd_eq_fst (w tmp : World) (hWF : w.WF)
    (htWF : tmp.WF) (htw : tmp.width = w.width) (hth : tmp.height = w.height) :
    (w.advance tmp).2 = (w.advance tmp).1 := by
  have hs : tmp.ShapeEq w := World.shapeEq_of_WF htWF hWF htw hth
  have hsh : (w.advance tmp).2.ShapeEq w := by
    rw [World.advance_snd]
    exact World.shapeEq_trans (World.writeNext_shape w tmp) hs
  have hfst := World.advance_fst_shape w tmp
  apply World.eq_of_parts
  · apply List.ext_getElem
    · rw [hsh.2.2.1, hfst.2.2.1]
    · intro y h1 h2
      have hyw : y < w.cells.length := by rw [← hsh.2.2.1]; exact h1
      apply List.ext_getElem
      · rw [← World.row_eq_getElem _ y h1, ← World.row_eq_getElem _ y h2,
          hsh.2.2.2 y, hfst.2.2.2 y]
      · intro x hx1 hx2
        have hxw : x < (w.row y).length := by
          rw [← hsh.2.2.2 y, World.row_eq_getElem _ y h1]
          exact hx1
        rw [World.getElem_cells _ h1 hx1, World.getElem_cells _ h2 hx2,
          World.advance_snd, World.writeNext_cell w tmp hs,
          if_pos ⟨hyw, hxw⟩,
          World.advance_fst_cell w tmp hs y x hyw hxw]
  · exact hsh.1.trans hfst.1.symm
  · exact hsh.2.1.trans hfst.2.1.symm

lemma World.advance_eq_step (w tmp : World) (hWF : w.WF)
    (htWF : tmp.WF) (htw : tmp.width = w.width) (hth : tmp.height = w.height) :
    w.advance tmp = (stepWorld w, stepWorld w) := by
  have hs : tmp.ShapeEq w := World.shapeEq_of_WF htWF hWF htw hth
  have h1 := World.advance_fst_eq_step w tmp hs
  have h2 := World.advance_snd_eq_fst w tmp hWF htWF htw hth
  exact Prod.ext h1 (h2.trans h1)

/-! ### Claim theorems -/

/-- C1: for a well-formed world with dimensions at least 3x3 and a
same-dimension scratch, after `advance` every in-range cell of the
current grid equals the specification's rule table applied to that
cell's prior state and prior neighbor count, both taken from the
unmodified previous generation. -/
theorem advance_implements_rule_table (w s : World)
    (hWF : w.WF) (_hw3 : 3 ≤ w.width) (_hh3 : 3 ≤ w.height)
    (hsWF : s.WF) (hsw : s.width = w.width) (hsh : s.height = w.height)
    (x y : Nat) (hx : x < w.width) (hy : y < w.height) :
    (w.advance s).1.cell y x =
      specRuleTable (w.cell y x) (w.count_neighbors x y) := by
  have hs : s.ShapeEq w := World.shapeEq_of_WF hsWF hWF hsw hsh
  rw [World.advance_fst_cell w s hs y x (by rw [hWF.1]; exact hy)
    (by rw [hWF.2 y hy]; exact hx)]
  exact World.newCell_eq_specRuleTable w x y

/-- Witness for C1 at a concrete seeded world and coordinate. -/
theorem advance_implements_rule_table_witness :
    ((seedWorld 5 5).advance (World.newOk 5 5)).1.cell 2 3 =
      specRuleTable ((seedWorld 5 5).cell 2 3)
        ((seedWorld 5 5).count_neighbors 3 2) :=
  advance_implements_rule_table (seedWorld 5 5) (World.newOk 5 5)
    (by decide) (by decide) (by decide) (by decide) rfl rfl
    3 2 (by decide) (by decide)

/-- C2: `count_neighbors` returns the toroidal 8-neighbor Live/Dead sum
(the cell itself not counted) and its value lies in [0, 8]. -/
theorem count_neighbors_correct (w : World)
    (_hWF : w.WF) (_hw3 : 3 ≤ w.width) (_hh3 : 3 ≤ w.height)
    (x y : Nat) (hx : x < w.width) (hy : y < w.height) :
    w.count_neighbors x y = specNeighborSum w x y ∧
    w.count_neighbors x y ≤ 8 :=
  ⟨World.count_neighbors_eq_spec w x y hx hy,
   World.count_neighbors_le_eight w x y⟩

/-- Witness for C2 at a corner of a concrete seeded world. -/
theorem count_neighbors_correct_witness :
    (seedWorld 5 5).count_neighbors 0 0 = specNeighborSum (seedWorld 5 5) 0 0 ∧
    (seedWorld 5 5).count_neighbors 0 0 ≤ 8 :=
  count_neighbors_correct (seedWorld 5 5) (by decide) (by decide) (by decide)
    0 0 (by decide) (by decide)

/-- C4: `World::new` errors exactly when a dimension is below 3;
otherwise it succeeds with an all-`Dead` grid of the requested
dimensions. -/
theorem new_correct (width height : Nat) :
    ((width < 3 ∨ height < 3) →
      World.new width height = .error "the world cannot be smaller than 3x3") ∧
    (3 ≤ width → 3 ≤ height →
      World.new width height = .ok (World.newOk width height) ∧
      (World.newOk width height).width = width ∧
      (World.newOk width height).height = height ∧
      ∀ y x, (World.newOk width height).cell y x = Cell.Dead) := by
  constructor
  · intro h
    rw [World.new, if_pos h]
  · intro h1 h2
    refine ⟨by rw [World.new, if_neg (by omega)], rfl, rfl, fun y x => ?_⟩
    show ((World.newOk width height).row y).getD x Cell.Dead = Cell.Dead
    by_cases hy : y < height
    · have hrow : (World.newOk width height).row y =
          List.replicate width Cell.Dead := by
        show (List.replicate height (List.replicate width Cell.Dead)).getD y [] = _
        rw [List.getD_eq_getElem _ _ (by simpa using hy), List.getElem_replicate]
      rw [hrow, List.getD_eq_getElem?_getD,
        List.getElem?_getD_replicate_default_eq]
    · rw [World.row_eq_nil _ _
        (by rw [show (World.newOk width height).cells.length = height from
          List.length_replicate ..]; omega)]
      rfl

/-- Witness for C4: one rejected and one accepted construction. -/
theorem new_correct_witness :
    World.new 2 5 = .error "the world cannot be smaller than 3x3" ∧
    World.new 3 4 = .ok (World.newOk 3 4) :=
  ⟨(new_correct 2 5).1 (Or.inl (by omega)),
   ((new_correct 3 4).2 (by omega) (by omega)).1⟩

/-- C6: width, height and the rectangular shape of the grid are
preserved by `set` and by `advance`; `as_string` does not mutate the
world at all (by construction in this pure embedding it only returns a
string). -/
theorem dimensions_never_change (w tmp : World) (x y : Nat) (v : Cell)
    (hWF : w.WF) :
    ((w.set x y v).width = w.width ∧ (w.set x y v).height = w.height ∧
      (w.set x y v).WF) ∧
    ((w.advance tmp).1.width = w.width ∧
      (w.advance tmp).1.height = w.height ∧ (w.advance tmp).1.WF) :=
  ⟨⟨rfl, rfl, World.set_WF w x y v hWF⟩,
   ⟨rfl, rfl, World.advance_fst_WF w tmp hWF⟩⟩

/-- Witness for C6 at a concrete world, write and advance. -/
theorem dimensions_never_change_witness :
    (((seedWorld 4 3).set 1 2 Cell.Live).width = (seedWorld 4 3).width ∧
      ((seedWorld 4 3).set 1 2 Cell.Live).height = (seedWorld 4 3).height ∧
      ((seedWorld 4 3).set 1 2 Cell.Live).WF) ∧
    (((seedWorld 4 3).advance (World.newOk 4 3)).1.width =
        (seedWorld 4 3).width ∧
      ((seedWorld 4 3).advance (World.newOk 4 3)).1.height =
        (seedWorld 4 3).height ∧
      ((seedWorld 4 3).advance (World.newOk 4 3)).1.WF) :=
  dimensions_never_change (seedWorld 4 3) (World.newOk 4 3) 1 2 Cell.Live
    (by decide)

/-- C9: `set` writes the given value at (x, y) and leaves every other
cell, as well as the width and the height, unchanged. -/
theorem set_correct (w : World) (x y : Nat) (v : Cell) (hWF : w.WF)
    (hx : x < w.width) (hy : y < w.height) :
    (w.set x y v).cell y x = v ∧
    (∀ y' x', ¬(y' = y ∧ x' = x) → (w.set x y v).cell y' x' = w.cell y' x') ∧
    (w.set x y v).width = w.width ∧ (w.set x y v).height = w.height := by
  have hy' : y < w.cells.length := by rw [hWF.1]; exact hy
  have hx' : x < (w.row y).length := by rw [hWF.2 y hy]; exact hx
  refine ⟨?_, ?_, rfl, rfl⟩
  · rw [World.cell_set, if_pos ⟨rfl, rfl, hy', hx'⟩]
  · intro y' x' hne
    rw [World.cell_set,
      if_neg (by rintro ⟨rfl, rfl, -, -⟩; exact hne ⟨rfl, rfl⟩)]

/-- Witness for C9 at a concrete world and coordinate. -/
theorem set_correct_witness :
    ((World.newOk 3 3).set 1 2 Cell.Live).cell 2 1 = Cell.Live ∧
    (∀ y' x', ¬(y' = 2 ∧ x' = 1) →
      ((World.newOk 3 3).set 1 2 Cell.Live).cell y' x' =
        (World.newOk 3 3).cell y' x') ∧
    ((World.newOk 3 3).set 1 2 Cell.Live).width = (World.newOk 3 3).width ∧
    ((World.newOk 3 3).set 1 2 Cell.Live).height = (World.newOk 3 3).height :=
  set_correct (World.newOk 3 3) 1 2 Cell.Live (by decide) (by decide) (by decide)

/-- C5: the result of `advance` on the current grid does not depend on
the scratch buffer's prior contents: any two same-dimension scratch
worlds give identical current grids. -/
theorem advance_ignores_scratch (w s1 s2 : World) (hWF : w.WF)
    (h1WF : s1.WF) (h1w : s1.width = w.width) (h1h : s1.height = w.height)
    (h2WF : s2.WF) (h2w : s2.width = w.width) (h2h : s2.height = w.height) :
    (w.advance s1).1 = (w.advance s2).1 := by
  have hs1 : s1.ShapeEq w := World.shapeEq_of_WF h1WF hWF h1w h1h
  have hs2 : s2.ShapeEq w := World.shapeEq_of_WF h2WF hWF h2w h2h
  refine World.eq_of_parts ?_ rfl rfl
  rw [World.advance_fst_cells, World.advance_fst_cells]
  apply mapIdx_congr_fun
  intro y hy
  apply mapIdx_congr_fun
  intro x hx
  have hx' : x < (w.row y).length := by
    rw [World.row_eq_getElem w y hy]
    simpa using hx
  rw [World.writeNext_cell w s1 hs1, World.writeNext_cell w s2 hs2,
    if_pos ⟨hy, hx'⟩, if_pos ⟨hy, hx'⟩]

/-- Witness for C5 with two scratch worlds of different prior contents. -/
theorem advance_ignores_scratch_witness :
    ((seedWorld 4 4).advance (World.newOk 4 4)).1 =
      ((seedWorld 4 4).advance ((World.newOk 4 4).set 0 0 Cell.Live)).1 :=
  advance_ignores_scratch (seedWorld 4 4) (World.newOk 4 4)
    ((World.newOk 4 4).set 0 0 Cell.Live) (by decide) (by decide) rfl rfl
    (by decide) rfl rfl

/-- C7: an all-`Dead` well-formed world with dimensions at least 3x3
stays all-`Dead` after any number of `advance` calls with a
same-dimension scratch. -/
theorem all_dead_stable (w tmp : World) (hWF : w.WF)
    (_hw3 : 3 ≤ w.width) (_hh3 : 3 ≤ w.height) (htWF : tmp.WF)
    (htw : tmp.width = w.width) (hth : tmp.height = w.height)
    (hdead : w.AllDead) (n : Nat) :
    (advanceN n (w, tmp)).1.AllDead :=
  (advanceN_dead_invariant n w tmp hWF
    (World.shapeEq_of_WF htWF hWF htw hth) hdead).2.2.2

/-- Witness for C7: three generations of an all-dead 3x3 world. -/
theorem all_dead_stable_witness :
    (advanceN 3 (World.newOk 3 3, World.newOk 3 3)).1.AllDead :=
  all_dead_stable (World.newOk 3 3) (World.newOk 3 3) (by decide) (by decide)
    (by decide) (by decide) rfl rfl (by decide) 3

/-- C8: `as_string` renders the grid row-major, one symbol per cell
(two distinct fixed symbols, '.' for Dead and 'O' for Live) with a
newline after each row; it is a pure function of the grid, so two
successive calls agree and the world is left unchanged. -/
theorem as_string_correct (w : World) :
    (w.as_string).data =
      (w.cells.map (fun row => row.map Cell.symbol ++ ['\n'])).flatten ∧
    Cell.symbol Cell.Dead = '.' ∧ Cell.symbol Cell.Live = 'O' ∧
    Cell.symbol Cell.Dead ≠ Cell.symbol Cell.Live ∧
    w.as_string = w.as_string := by
  refine ⟨?_, rfl, rfl, by decide, rfl⟩
  unfold World.as_string
  rw [as_string_data_aux]
  simp

/-- C10: after `advance`, the scratch world equals the current world —
both hold the new generation — so the same scratch can be reused for
the next call without resetting it. -/
theorem scratch_matches_current (w tmp : World) (hWF : w.WF)
    (htWF : tmp.WF) (htw : tmp.width = w.width) (hth : tmp.height = w.height) :
    (w.advance tmp).2 = (w.advance tmp).1 :=
  World.advance_snd_eq_fst w tmp hWF htWF htw hth

/-- Witness for C10 at a concrete seeded world. -/
theorem scratch_matches_current_witness :
    ((seedWorld 4 4).advance (World.newOk 4 4)).2 =
      ((seedWorld 4 4).advance (World.newOk 4 4)).1 :=
  scratch_matches_current (seedWorld 4 4) (World.newOk 4 4) (by decide)
    (by decide) rfl rfl

/-- Counterexample for C3 as stated for every width, height >= 3: on the
3x3 torus every cell has all eight other cells as neighbors, so the
five-cell glider dies out entirely and after four `advance` calls the
grid is not the translated glider. -/
theorem glider_translation_fails_3x3 :
    (advanceN 4 (seedWorld 3 3, World.newOk 3 3)).1 ≠ gliderTranslated 3 3 := by
  decide

set_option maxRecDepth 8000 in
/-- C3 (amended to a concrete adequately sized grid, width = height =
10, where the glider does not interact with itself across the wrap):
seeding the five-cell glider around the midpoint and calling `advance`
exactly 4 times yields exactly the original five-cell set translated by
(+1, +1) modulo (width, height), all other cells Dead. -/
theorem glider_translation_10x10 :
    (advanceN 4 (seedWorld 10 10, World.newOk 10 10)).1 =
      gliderTranslated 10 10 := by
  decide
